import Mathlib

set_option maxRecDepth 8000

/-!
Verification development for the Gemini AI orchestrator
(src/backend/app/services/ai_service.py): credential pool rotation,
retry/backoff control and structured-output extraction.

Conventions of the shallow embedding:
* Python strings are Lean `String`s; Python slicing/indexing is by code
  point, matching Lean's character-based `String` operations.
* Python `set` of indices is a `Finset ℕ`; the usage-count dict is a total
  function `ℕ → ℕ` defaulting to 0 (mirrors `dict.get(i, 0)`).
* The outbound network call is an oracle `ℕ → CallOutcome` giving each
  attempt's outcome; `random.uniform(0, 1)` is an input stream
  `jitter : ℕ → ℚ`; `asyncio.sleep` is recorded as an `OrchAction` in a trace.
* Exceptions become explicit result constructors (`Except`-style).
-/

/-- ASCII whitespace stripped by Python `str.strip()`. -/
def isPyWs (c : Char) : Bool :=
  c == ' ' || c == '\t' || c == '\n' || c == '\r' || c == Char.ofNat 11 || c == Char.ofNat 12

/-- Python `s.strip()` (by code point, structural recursion so that the
kernel can evaluate it). -/
def pyTrim (s : String) : String :=
  String.mk (((s.data.dropWhile isPyWs).reverse.dropWhile isPyWs).reverse)

/-- Python `s.startswith(pat)`. -/
def pyStartsWith (s pat : String) : Bool :=
  pat.data.isPrefixOf s.data

/-- Python `s.endswith(pat)`. -/
def pyEndsWith (s pat : String) : Bool :=
  pat.data.reverse.isPrefixOf s.data.reverse

/-- Python slice `s[n:]` (by code point). -/
def pyDrop (s : String) (n : Nat) : String :=
  String.mk (s.data.drop n)

/-- Python slice `s[:-n]` (by code point). -/
def pyDropRight (s : String) (n : Nat) : String :=
  String.mk (s.data.take (s.data.length - n))

/-- Python `s.lower()` (ASCII case folding as used by the classifier). -/
def pyToLower (s : String) : String :=
  String.mk (s.data.map Char.toLower)

/-- Python substring containment test `pat in s`. -/
def strContains (s pat : String) : Bool :=
  (List.range (s.data.length + 1)).any (fun i => pat.data.isPrefixOf (s.data.drop i))

/-- Python slice `s[:n]` (by code point). -/
def pyTake (s : String) (n : Nat) : String :=
  String.mk (s.data.take n)

/-- Python slice `s[a:b]` (by code point). -/
def pySlice (s : String) (a b : Nat) : String :=
  String.mk ((s.data.drop a).take (b - a))

/-- Python `s.find(c)` except that absence is `none` rather than `-1`. -/
def strFindChar (s : String) (c : Char) : Option Nat :=
  s.data.findIdx? (fun x => x == c)

/-- Python `s.rfind(c)` except that absence is `none` rather than `-1`. -/
def strRFindChar (s : String) (c : Char) : Option Nat :=
  match s.data.reverse.findIdx? (fun x => x == c) with
  | some j => some (s.data.length - 1 - j)
  | none => none

/-- Parsed JSON values. Numbers keep their source token, which is enough to
distinguish parse success from failure (no numeric semantics is claimed). -/
inductive Json where
  | null : Json
  | bool : Bool → Json
  | num : String → Json
  | str : String → Json
  | arr : List Json → Json
  | obj : List (String × Json) → Json

/-- JSON insignificant whitespace (space, tab, newline, carriage return). -/
def skipJsonWs (cs : List Char) : List Char :=
  cs.dropWhile (fun c => c == ' ' || c == '\t' || c == '\n' || c == '\r')

/-- Value of a hexadecimal digit, if any. -/
def hexDigitVal (c : Char) : Option Nat :=
  if c.isDigit then some (c.toNat - 48)
  else if 'a' ≤ c ∧ c ≤ 'f' then some (c.toNat - 87)
  else if 'A' ≤ c ∧ c ≤ 'F' then some (c.toNat - 55)
  else none

/-- Body of a JSON string after the opening quote: decoded characters and the
remaining input past the closing quote. -/
def parseStringChars : Nat → List Char → Option (List Char × List Char)
  | 0, _ => none
  | _, [] => none
  | fuel + 1, c :: cs =>
    if c = '\"' then some ([], cs)
    else if c = '\\' then
      match cs with
      | [] => none
      | e :: cs' =>
        let dec : Option (Char × List Char) :=
          if e = '\"' then some ('\"', cs')
          else if e = '\\' then some ('\\', cs')
          else if e = '/' then some ('/', cs')
          else if e = 'b' then some (Char.ofNat 8, cs')
          else if e = 'f' then some (Char.ofNat 12, cs')
          else if e = 'n' then some ('\n', cs')
          else if e = 'r' then some ('\r', cs')
          else if e = 't' then some ('\t', cs')
          else if e = 'u' then
            match cs' with
            | a :: b :: c2 :: d :: rest =>
              match hexDigitVal a, hexDigitVal b, hexDigitVal c2, hexDigitVal d with
              | some va, some vb, some vc, some vd =>
                some (Char.ofNat (va * 4096 + vb * 256 + vc * 16 + vd), rest)
              | _, _, _, _ => none
            | _ => none
          else none
        match dec with
        | some (ch, rest) =>
          match parseStringChars fuel rest with
          | some (acc, r) => some (ch :: acc, r)
          | none => none
        | none => none
    else if c.toNat < 32 then none
    else
      match parseStringChars fuel cs with
      | some (acc, r) => some (c :: acc, r)
      | none => none

/-- Integer part of a JSON number: `0` or a nonzero digit followed by digits. -/
def parseIntPart (cs : List Char) : Option (List Char × List Char) :=
  match cs with
  | [] => none
  | d :: r =>
    if d = '0' then some ([d], r)
    else if d.isDigit then
      some (d :: r.takeWhile (fun c => c.isDigit), r.dropWhile (fun c => c.isDigit))
    else none

/-- Optional fractional part of a JSON number. -/
def parseFracPart (cs : List Char) : Option (List Char × List Char) :=
  match cs with
  | c :: r =>
    if c = '.' then
      let ds := r.takeWhile (fun x => x.isDigit)
      if ds = [] then none else some (c :: ds, r.dropWhile (fun x => x.isDigit))
    else some ([], cs)
  | [] => some ([], cs)

/-- Optional exponent part of a JSON number. -/
def parseExpPart (cs : List Char) : Option (List Char × List Char) :=
  match cs with
  | e :: r =>
    if e = 'e' ∨ e = 'E' then
      let signAndRest : List Char × List Char :=
        match r with
        | c :: rr => if c = '+' ∨ c = '-' then ([c], rr) else ([], r)
        | [] => ([], r)
      let ds := signAndRest.2.takeWhile (fun x => x.isDigit)
      if ds = [] then none
      else some (e :: (signAndRest.1 ++ ds), signAndRest.2.dropWhile (fun x => x.isDigit))
    else some ([], cs)
  | [] => some ([], cs)

/-- A full JSON number token (sign, integer, fraction, exponent). -/
def parseNumberToken (cs : List Char) : Option (String × List Char) :=
  let signAndRest : List Char × List Char :=
    match cs with
    | c :: r => if c = '-' then ([c], r) else ([], cs)
    | [] => ([], cs)
  match parseIntPart signAndRest.2 with
  | none => none
  | some (ip, cs2) =>
    match parseFracPart cs2 with
    | none => none
    | some (fp, cs3) =>
      match parseExpPart cs3 with
      | none => none
      | some (ep, cs4) => some (String.mk (signAndRest.1 ++ ip ++ fp ++ ep), cs4)

mutual

/-- One JSON value (with leading whitespace) and the remaining input. -/
def parseJsonValue : Nat → List Char → Option (Json × List Char)
  | 0, _ => none
  | fuel + 1, cs0 =>
    let cs := skipJsonWs cs0
    match cs with
    | [] => none
    | c :: rest =>
      if c = Char.ofNat 123 then
        let cs1 := skipJsonWs rest
        match cs1 with
        | ch :: cs2 =>
          if ch = Char.ofNat 125 then some (Json.obj [], cs2)
          else
            match parseObjectMembers fuel cs1 with
            | some (ms, r) => some (Json.obj ms, r)
            | none => none
        | [] => none
      else if c = '[' then
        let cs1 := skipJsonWs rest
        match cs1 with
        | ch :: cs2 =>
          if ch = ']' then some (Json.arr [], cs2)
          else
            match parseArrayItems fuel cs1 with
            | some (xs, r) => some (Json.arr xs, r)
            | none => none
        | [] => none
      else if c = '\"' then
        match parseStringChars (rest.length + 1) rest with
        | some (content, r) => some (Json.str (String.mk content), r)
        | none => none
      else if c = 't' then
        match cs with
        | 't' :: 'r' :: 'u' :: 'e' :: r => some (Json.bool true, r)
        | _ => none
      else if c = 'f' then
        match cs with
        | 'f' :: 'a' :: 'l' :: 's' :: 'e' :: r => some (Json.bool false, r)
        | _ => none
      else if c = 'n' then
        match cs with
        | 'n' :: 'u' :: 'l' :: 'l' :: r => some (Json.null, r)
        | _ => none
      else
        match parseNumberToken cs with
        | some (tok, r) => some (Json.num tok, r)
        | none => none

/-- Comma-separated JSON array items up to the closing bracket. -/
def parseArrayItems : Nat → List Char → Option (List Json × List Char)
  | 0, _ => none
  | fuel + 1, cs =>
    match parseJsonValue fuel cs with
    | none => none
    | some (v, r) =>
      match skipJsonWs r with
      | ',' :: r2 =>
        match parseArrayItems fuel r2 with
        | some (xs, rr) => some (v :: xs, rr)
        | none => none
      | ']' :: r2 => some ([v], r2)
      | _ => none

/-- Comma-separated JSON object members up to the closing brace. -/
def parseObjectMembers : Nat → List Char → Option (List (String × Json) × List Char)
  | 0, _ => none
  | fuel + 1, cs =>
    match skipJsonWs cs with
    | c :: r =>
      if c = '\"' then
        match parseStringChars (r.length + 1) r with
        | none => none
        | some (key, r1) =>
          match skipJsonWs r1 with
          | ':' :: r2 =>
            match parseJsonValue fuel r2 with
            | none => none
            | some (v, r3) =>
              match skipJsonWs r3 with
              | ',' :: r4 =>
                match parseObjectMembers fuel r4 with
                | some (ms, rr) => some ((String.mk key, v) :: ms, rr)
                | none => none
              | c2 :: r4 =>
                if c2 = Char.ofNat 125 then some ([(String.mk key, v)], r4) else none
              | [] => none
          | _ => none
      else none
    | [] => none

end

/-- Modelled from the spec: the JSON parsing used by
`_parse_structured_output` is Python's `json.loads`, which is not part of
the repository sources; per the spec the content is "governed by standard
JSON grammar and no custom schema".  This is a standard-grammar JSON
acceptor: `some v` on a well-formed document, `none` on a malformed one. -/
def jsonLoads (s : String) : Option Json :=
  match parseJsonValue (s.data.length * 2 + 2) s.data with
  | some (v, r) => if skipJsonWs r = [] then some v else none
  | none => none

/-- Result of `_parse_structured_output`: either a parsed JSON value, or the
diagnostic dict `\x7b"error": e, "raw_response": raw\x7d` rendered as
`diagnostic e raw`. -/
inductive ParseOutcome where
  | parsed : Json → ParseOutcome
  | diagnostic : String → String → ParseOutcome

/-- The normalization phase of `_parse_structured_output` (ai_service.py
lines 188-196): trim, strip a leading "```json", then strip a leading
"```" from the result, then strip one trailing "```". -/
def normalizeResponse (response : String) : String :=
  let r0 := pyTrim response
  let r1 := if pyStartsWith r0 "```json" then pyDrop r0 7 else r0
  let r2 := if pyStartsWith r1 "```" then pyDrop r1 3 else r1
  if pyEndsWith r2 "```" then pyDropRight r2 3 else r2

/-- Lines 202-217 of `_parse_structured_output`: parse the chosen target
as JSON; on a `JSONDecodeError` return — never raise — the diagnostic dict
built from the (truncated) normalized text. -/
def outcomeOf (target whole : String) : ParseOutcome :=
  match jsonLoads target with
  | some v => ParseOutcome.parsed v
  | none => ParseOutcome.diagnostic "Failed to parse structured output" (pyTake whole 500)

/-- `GeminiService._parse_structured_output` (ai_service.py lines 184-217).
The Python `-1` sentinel of `find`/`rfind` is kept as an `Int`. -/
def parseStructuredOutput (response : String) : ParseOutcome :=
  let r := normalizeResponse response
  let startIdx : Int :=
    match strFindChar r (Char.ofNat 123) with
    | some i => (i : Int)
    | none => -1
  let endIdx : Int :=
    (match strRFindChar r (Char.ofNat 125) with
     | some j => (j : Int)
     | none => -1) + 1
  if 0 ≤ startIdx ∧ startIdx < endIdx then
    outcomeOf (pySlice r startIdx.toNat endIdx.toNat) r
  else
    outcomeOf r r

/-- Follows the spec's words (§4.3) as quoted by the claim: strips the
leading plain "```" marker **only if** the JSON-specific "```json" marker
was absent from the trimmed text. -/
def specNormalizeResponse (response : String) : String :=
  let t := pyTrim response
  let t1 := if pyStartsWith t "```json" then pyDrop t 7 else t
  let t2 := if !(pyStartsWith t "```json") && pyStartsWith t1 "```" then pyDrop t1 3 else t1
  if pyEndsWith t2 "```" then pyDropRight t2 3 else t2

/-- Follows the spec's words: locate the first `\x7b` and the last `\x7d`;
if both are found and the closing index is after the opening index, parse
that inclusive substring as JSON, otherwise parse the entire text. -/
def specLocateTarget (t : String) : String :=
  match strFindChar t (Char.ofNat 123), strRFindChar t (Char.ofNat 125) with
  | some i, some j => if i < j then pySlice t i (j + 1) else t
  | _, _ => t

/-- The structured-output extractor as the claim describes it (spec-side
definition for the refinement comparison): `specNormalizeResponse`
followed by brace location and JSON parsing. -/
def specParseStructuredOutput (response : String) : ParseOutcome :=
  let t := specNormalizeResponse response
  outcomeOf (specLocateTarget t) t

/-- The claim amended no more than the counterexample forces: the leading
plain "```" marker is stripped whenever the text remaining after the
previous step starts with one, even when the JSON-specific marker was just
stripped.  Target location and parsing are as the claim states them. -/
def specParseStructuredOutputAmended (response : String) : ParseOutcome :=
  let t := normalizeResponse response
  outcomeOf (specLocateTarget t) t

/-- State of `GeminiService` (ai_service.py lines 33-39): the credential
list, the rotation cursor, the per-index usage counters and the failed set.
`key_usage_count` is total with default 0, mirroring `dict.get(i, 0)`. -/
structure GeminiService where
  api_keys : List String
  current_key_index : Nat
  key_usage_count : Nat → Nat
  failed_keys : Finset Nat

/-- `GeminiService._load_api_keys` (lines 41-54): collect the environment
values `GEMINI_API_KEY_1` .. `GEMINI_API_KEY_4` that are set and non-empty
(Python truthiness of `if key:`); error if none is found. -/
def loadedKeys (env : Nat → Option String) : List String :=
  (List.range 4).filterMap (fun i =>
    match env (i + 1) with
    | some k => if k = "" then none else some k
    | none => none)

def loadApiKeys (env : Nat → Option String) : Except String (List String) :=
  if loadedKeys env = [] then
    Except.error "No Gemini API keys found. At least GEMINI_API_KEY_1 is required for production mode."
  else Except.ok (loadedKeys env)

/-- `GeminiService.__init__` (lines 34-39): load keys (raising on an empty
result), start the cursor at 0 with empty usage counts and failed set. -/
def GeminiService.init (env : Nat → Option String) : Except String GeminiService :=
  match loadApiKeys env with
  | Except.error e => Except.error e
  | Except.ok keys => Except.ok (GeminiService.mk keys 0 (fun _ => 0) ∅)

/-- Line 71 of `_get_next_api_key`: the indices not currently failed. -/
def GeminiService.availIndices (s : GeminiService) : List Nat :=
  (List.range s.api_keys.length).filter (fun i => i ∉ s.failed_keys)

/-- Lines 70-76 of `_get_next_api_key`: the available indices, and the
failed set after the self-healing reset (cleared when no index was
available). -/
def GeminiService.availableAfterReset (s : GeminiService) : List Nat × Finset Nat :=
  if s.availIndices = [] then (List.range s.api_keys.length, ∅)
  else (s.availIndices, s.failed_keys)

/-- The index `_get_next_api_key` selects (line 79):
`available_indices[current_key_index % len(available_indices)]`. -/
def GeminiService.selectedIdx (s : GeminiService) : Option Nat :=
  if s.api_keys = [] then none
  else
    let avail := s.availableAfterReset.1
    some (avail.getD (s.current_key_index % avail.length) 0)

/-- `GeminiService._get_next_api_key` (lines 65-88): `None` when there are
no keys; otherwise reset the failed set if it covers everything, pick the
round-robin index among available ones, advance the cursor modulo the
available count, bump the usage counter, and return the key. -/
def GeminiService.getNextApiKey (s : GeminiService) : Option String × GeminiService :=
  if s.api_keys = [] then (none, s)
  else
    let ar := s.availableAfterReset
    let avail := ar.1
    let selectedIndex := avail.getD (s.current_key_index % avail.length) 0
    (some (s.api_keys.getD selectedIndex ""),
     GeminiService.mk s.api_keys ((s.current_key_index + 1) % avail.length)
       (fun j => if j = selectedIndex then s.key_usage_count j + 1 else s.key_usage_count j)
       ar.2)

/-- `GeminiService._mark_key_failed` (lines 90-97): look the key up by value
(`list.index`, i.e. the first matching position); add that index to the
failed set; swallow the `ValueError` (no-op) when the value is absent. -/
def GeminiService.markKeyFailed (s : GeminiService) (api_key : String) : GeminiService :=
  match s.api_keys.findIdx? (fun k => k == api_key) with
  | some i => GeminiService.mk s.api_keys s.current_key_index s.key_usage_count (insert i s.failed_keys)
  | none => s

/-- A pool state as produced by a successful construction: at least one
credential, and no credential is the empty string. -/
def goodKeys (s : GeminiService) : Prop :=
  s.api_keys ≠ [] ∧ ∀ k ∈ s.api_keys, k ≠ ""

instance : DecidablePred goodKeys := fun s => by
  unfold goodKeys; infer_instance

/-- Indices selected by `M` consecutive `_get_next_api_key` calls. -/
def selTrace (s : GeminiService) : Nat → List Nat
  | 0 => []
  | M + 1 =>
    match s.selectedIdx with
    | none => []
    | some i => i :: selTrace s.getNextApiKey.2 M

/-- Outcome of one underlying `model.generate_content` call: the response
text on success, or the message of the raised exception. -/
inductive CallOutcome where
  | success : String → CallOutcome
  | failure : String → CallOutcome

/-- Lines 150-158 of `call_gemini`: a truthy (non-empty) `response.text` is
a success carrying the text; an empty one raises
`Exception("Empty response from Gemini")`; an exception from the call
itself keeps its message.  `Sum.inl` is the success text, `Sum.inr` the
exception message reaching the `except` block. -/
def CallOutcome.toStep : CallOutcome → String ⊕ String
  | CallOutcome.success text => if text = "" then Sum.inr "Empty response from Gemini" else Sum.inl text
  | CallOutcome.failure msg => Sum.inr msg

/-- The exception message an attempt outcome produces, if any. -/
def failMsg (o : CallOutcome) : Option String :=
  match o.toStep with
  | Sum.inl _ => none
  | Sum.inr m => some m

/-- Line 165 of `call_gemini`: quota/rate-limit classification over the
lower-cased exception message. -/
def isQuotaError (msg : String) : Bool :=
  strContains (pyToLower msg) "quota" || strContains (pyToLower msg) "429" ||
    strContains (pyToLower msg) "rate limit"

/-- Observable actions of one `call_gemini` invocation: issuing an attempt
with a key, marking a key failed, and sleeping for a backoff duration (in
seconds). -/
inductive OrchAction where
  | attemptCall : String → OrchAction
  | markFailed : String → OrchAction
  | sleep : ℚ → OrchAction
deriving DecidableEq

/-- The payload `call_gemini` returns: the stripped raw text, or (when
`structured_output` is set) the extractor's result. -/
inductive GeminiPayload where
  | text : String → GeminiPayload
  | json : ParseOutcome → GeminiPayload

/-- How a `call_gemini` invocation terminates: a returned payload, the
`RuntimeError("No available Gemini API keys")`, or the terminal
`RuntimeError` of line 182 carrying the attempt budget and the last
observed error message. -/
inductive GeminiResult where
  | ok : GeminiPayload → GeminiResult
  | errorNoKeys : GeminiResult
  | errorExhausted : Nat → Option String → GeminiResult

/-- Prepend this step's actions to a continuation's trace. -/
def withActions (pre : List OrchAction) (c : GeminiResult × GeminiService × List OrchAction) :
    GeminiResult × GeminiService × List OrchAction :=
  (c.1, c.2.1, pre ++ c.2.2)

/-- The `for attempt in range(retry_count)` loop of `call_gemini`
(lines 121-182), with `fuel` the number of remaining iterations
(`retry_count - attempt`) and `lastError` the `last_error` variable.
Each iteration: select a key (falsy key ⇒ `RuntimeError`), consult the
oracle for this attempt's outcome; on non-empty text return (extracting
JSON when `structured`); on an exception message classify it — quota ⇒
mark the key failed and continue immediately; transient and not the last
attempt ⇒ sleep `2^attempt + jitter attempt` and continue; transient on
the last attempt ⇒ break.  An exhausted loop raises the terminal error
wrapping `last_error`. -/
def callGeminiLoop (oracle : Nat → CallOutcome) (jitter : Nat → ℚ) (structured : Bool)
    (retryCount : Nat) : Nat → Nat → GeminiService → Option String →
    GeminiResult × GeminiService × List OrchAction
  | _, 0, s, lastError => (GeminiResult.errorExhausted retryCount lastError, s, [])
  | attempt, fuel + 1, s, _lastError =>
    match s.getNextApiKey with
    | (none, s1) => (GeminiResult.errorNoKeys, s1, [])
    | (some key, s1) =>
      if key = "" then (GeminiResult.errorNoKeys, s1, [])
      else
        match (oracle attempt).toStep with
        | Sum.inl text =>
          let result := pyTrim text
          if structured then
            (GeminiResult.ok (GeminiPayload.json (parseStructuredOutput result)), s1,
             [OrchAction.attemptCall key])
          else
            (GeminiResult.ok (GeminiPayload.text result), s1, [OrchAction.attemptCall key])
        | Sum.inr msg =>
          if isQuotaError msg then
            withActions [OrchAction.attemptCall key, OrchAction.markFailed key]
              (callGeminiLoop oracle jitter structured retryCount (attempt + 1) fuel
                (s1.markKeyFailed key) (some msg))
          else if attempt < retryCount - 1 then
            withActions [OrchAction.attemptCall key, OrchAction.sleep ((2 : ℚ) ^ attempt + jitter attempt)]
              (callGeminiLoop oracle jitter structured retryCount (attempt + 1) fuel s1 (some msg))
          else
            (GeminiResult.errorExhausted retryCount (some msg), s1, [OrchAction.attemptCall key])

/-- `GeminiService.call_gemini` (lines 99-182): run the retry loop from
attempt 0 with the full budget and `last_error = None`. -/
def call_gemini (oracle : Nat → CallOutcome) (jitter : Nat → ℚ) (structured : Bool)
    (retry_count : Nat) (s : GeminiService) : GeminiResult × GeminiService × List OrchAction :=
  callGeminiLoop oracle jitter structured retry_count 0 retry_count s none

/-- Number of outbound attempts recorded in a trace. -/
def numAttempts (tr : List OrchAction) : Nat :=
  tr.countP (fun a => match a with
    | OrchAction.attemptCall _ => true
    | _ => false)

/-! ### Helper lemmas about the credential pool -/

lemma getD_mem_nat {α : Type} (l : List α) (n : Nat) (d : α) (h : n < l.length) :
    l.getD n d ∈ l := by
  rw [List.getD_eq_getElem l d h]
  exact List.getElem_mem h

lemma availIndices_sub (s : GeminiService) :
    ∀ i ∈ s.availIndices, i < s.api_keys.length ∧ i ∉ s.failed_keys := by
  intro i hi
  unfold GeminiService.availIndices at hi
  have h := List.mem_filter.mp hi
  exact ⟨List.mem_range.mp h.1, by simpa using h.2⟩

lemma availableAfterReset_fst_sub (s : GeminiService) :
    ∀ i ∈ s.availableAfterReset.1, i < s.api_keys.length := by
  intro i hi
  unfold GeminiService.availableAfterReset at hi
  by_cases h : s.availIndices = []
  · simp only [h, if_pos rfl] at hi
    exact List.mem_range.mp hi
  · simp only [if_neg h] at hi
    exact (availIndices_sub s i hi).1

lemma availableAfterReset_fst_ne_nil (s : GeminiService) (h : s.api_keys ≠ []) :
    s.availableAfterReset.1 ≠ [] := by
  unfold GeminiService.availableAfterReset
  by_cases hav : s.availIndices = []
  · simp only [hav, if_pos rfl]
    intro hc
    exact h (List.length_eq_zero.mp (by simpa using congrArg List.length hc))
  · simpa only [if_neg hav] using hav

lemma availableAfterReset_snd_sub (s : GeminiService) :
    s.availableAfterReset.2 ⊆ s.failed_keys := by
  unfold GeminiService.availableAfterReset
  by_cases hav : s.availIndices = []
  · simp [hav]
  · simp [hav]

/-- With a non-empty key list, `_get_next_api_key` selects a well-defined
index and returns the corresponding key, with the key list unchanged. -/
lemma getNextApiKey_spec (s : GeminiService) (h : s.api_keys ≠ []) :
    ∃ i, s.selectedIdx = some i ∧ i < s.api_keys.length ∧
      s.getNextApiKey =
        (some (s.api_keys.getD i ""),
         GeminiService.mk s.api_keys
           ((s.current_key_index + 1) % s.availableAfterReset.1.length)
           (fun j => if j = i then s.key_usage_count j + 1 else s.key_usage_count j)
           s.availableAfterReset.2) := by
  have hne := availableAfterReset_fst_ne_nil s h
  have hlen : 0 < s.availableAfterReset.1.length := List.length_pos.mpr hne
  refine ⟨s.availableAfterReset.1.getD
    (s.current_key_index % s.availableAfterReset.1.length) 0, ?_, ?_, ?_⟩
  · unfold GeminiService.selectedIdx
    simp [h]
  · exact availableAfterReset_fst_sub s _
      (getD_mem_nat _ _ _ (Nat.mod_lt _ hlen))
  · unfold GeminiService.getNextApiKey
    simp [h]

lemma getNextApiKey_good (s : GeminiService) (h : goodKeys s) :
    ∃ key s', s.getNextApiKey = (some key, s') ∧ key ∈ s.api_keys ∧ key ≠ "" ∧
      s'.api_keys = s.api_keys ∧ s'.failed_keys ⊆ s.failed_keys := by
  obtain ⟨i, _, hlt, heq⟩ := getNextApiKey_spec s h.1
  refine ⟨_, _, heq, getD_mem_nat _ _ _ hlt, ?_, rfl, availableAfterReset_snd_sub s⟩
  exact h.2 _ (getD_mem_nat _ _ _ hlt)

lemma markKeyFailed_api_keys (s : GeminiService) (k : String) :
    (s.markKeyFailed k).api_keys = s.api_keys := by
  unfold GeminiService.markKeyFailed
  cases s.api_keys.findIdx? (fun x => x == k) <;> rfl

lemma goodKeys_congr (s s' : GeminiService) (h : s'.api_keys = s.api_keys)
    (hg : goodKeys s) : goodKeys s' := by
  unfold goodKeys at *
  rw [h]
  exact hg

/-! ### Helper lemmas about the retry loop -/

lemma failMsg_eq_some (o : CallOutcome) (m : String) :
    failMsg o = some m ↔ o.toStep = Sum.inr m := by
  unfold failMsg
  cases h : o.toStep <;> simp

lemma numAttempts_append (a b : List OrchAction) :
    numAttempts (a ++ b) = numAttempts a + numAttempts b := by
  unfold numAttempts
  exact List.countP_append _ _ _

/-- If every remaining attempt fails, the loop terminates with the
terminal `RuntimeError` carrying the last observed message, after issuing
exactly `fuel` further outbound attempts. -/
lemma callGeminiLoop_exhaust (oracle : Nat → CallOutcome) (jitter : Nat → ℚ) (st : Bool)
    (N : Nat) :
    ∀ fuel attempt s le, goodKeys s → attempt + fuel = N →
      (∀ k, k < fuel → (failMsg (oracle (attempt + k))).isSome) →
      (callGeminiLoop oracle jitter st N attempt fuel s le).1 =
        GeminiResult.errorExhausted N (if fuel = 0 then le else failMsg (oracle (N - 1))) ∧
      numAttempts (callGeminiLoop oracle jitter st N attempt fuel s le).2.2 = fuel := by
  intro fuel
  induction fuel with
  | zero =>
    intro attempt s le _ _ _
    simp [callGeminiLoop, numAttempts]
  | succ fuel ih =>
    intro attempt s le hg hN hf
    obtain ⟨key, s1, hsel, _, hk, hkeys, _⟩ := getNextApiKey_good s hg
    have hg1 : goodKeys s1 := goodKeys_congr s s1 hkeys hg
    have hm0 : (failMsg (oracle (attempt + 0))).isSome := hf 0 (Nat.succ_pos _)
    obtain ⟨msg, hmsg⟩ := Option.isSome_iff_exists.mp (by simpa using hm0)
    have hstep : (oracle attempt).toStep = Sum.inr msg := (failMsg_eq_some _ _).mp hmsg
    have hf' : ∀ k, k < fuel → (failMsg (oracle (attempt + 1 + k))).isSome := by
      intro k hkf
      have := hf (k + 1) (by omega)
      simpa [Nat.add_assoc, Nat.add_comm 1 k] using this
    have hlast : fuel = 0 → failMsg (oracle (N - 1)) = some msg := by
      intro h0
      have : attempt = N - 1 := by omega
      rw [← this]; exact hmsg
    by_cases hq : isQuotaError msg = true
    · have hgm : goodKeys (s1.markKeyFailed key) :=
        goodKeys_congr s1 _ (markKeyFailed_api_keys s1 key) hg1
      have ihr := ih (attempt + 1) (s1.markKeyFailed key) (some msg) hgm (by omega) hf'
      simp only [callGeminiLoop, hsel, hstep, hk, hq, withActions, if_true, if_neg hk]
      constructor
      · rw [ihr.1]
        by_cases h0 : fuel = 0
        · simp [h0, hlast h0]
        · simp [h0]
      · simp only [if_false]
        rw [numAttempts_append, ihr.2]
        have h1 : numAttempts [OrchAction.attemptCall key, OrchAction.markFailed key] = 1 := rfl
        rw [h1]
        omega
    · by_cases hlt : attempt < N - 1
      · have hfz : fuel ≠ 0 := by omega
        have ihr := ih (attempt + 1) s1 (some msg) hg1 (by omega) hf'
        simp only [callGeminiLoop, hsel, hstep, hk, hq, hlt, withActions, if_true, if_neg hk,
          if_false, Bool.false_eq_true]
        constructor
        · rw [ihr.1]
          simp [hfz]
        · rw [numAttempts_append, ihr.2]
          have h1 : numAttempts
              [OrchAction.attemptCall key, OrchAction.sleep ((2 : ℚ) ^ attempt + jitter attempt)] = 1 := rfl
          rw [h1]
          omega
      · have h0 : fuel = 0 := by omega
        simp only [callGeminiLoop, hsel, hstep, hk, hq, hlt, withActions, if_neg hk,
          if_false, Bool.false_eq_true]
        constructor
        · simp [hlast h0]
        · subst h0
          rfl

/-- From a well-constructed pool the loop can never raise the runtime
"No available Gemini API keys" error. -/
lemma callGeminiLoop_ne_noKeys (oracle : Nat → CallOutcome) (jitter : Nat → ℚ) (st : Bool)
    (N : Nat) :
    ∀ fuel attempt s le, goodKeys s →
      (callGeminiLoop oracle jitter st N attempt fuel s le).1 ≠ GeminiResult.errorNoKeys := by
  intro fuel
  induction fuel with
  | zero =>
    intro attempt s le _
    simp [callGeminiLoop]
  | succ fuel ih =>
    intro attempt s le hg
    obtain ⟨key, s1, hsel, _, hk, hkeys, _⟩ := getNextApiKey_good s hg
    have hg1 : goodKeys s1 := goodKeys_congr s s1 hkeys hg
    cases hstep : (oracle attempt).toStep with
    | inl text =>
      by_cases hb : st = true <;>
        simp [callGeminiLoop, hsel, hstep, hk, hb]
    | inr msg =>
      by_cases hq : isQuotaError msg = true
      · have hgm : goodKeys (s1.markKeyFailed key) :=
          goodKeys_congr s1 _ (markKeyFailed_api_keys s1 key) hg1
        simpa [callGeminiLoop, hsel, hstep, hk, hq, withActions] using
          ih (attempt + 1) (s1.markKeyFailed key) (some msg) hgm
      · by_cases hlt : attempt < N - 1
        · simpa [callGeminiLoop, hsel, hstep, hk, hq, hlt, withActions] using
            ih (attempt + 1) s1 (some msg) hg1
        · simp [callGeminiLoop, hsel, hstep, hk, hq, hlt]

/-- One quota-classified attempt: the step records the outbound call and
the `markFailed`, performs no sleep, and continues with the next attempt
slot on the marked pool. -/
lemma callGeminiLoop_quota_step (oracle : Nat → CallOutcome) (jitter : Nat → ℚ) (st : Bool)
    (N attempt fuel : Nat) (s s1 : GeminiService) (le : Option String) (key msg : String)
    (hsel : s.getNextApiKey = (some key, s1)) (hk : key ≠ "")
    (hstep : (oracle attempt).toStep = Sum.inr msg) (hq : isQuotaError msg = true) :
    callGeminiLoop oracle jitter st N attempt (fuel + 1) s le =
      withActions [OrchAction.attemptCall key, OrchAction.markFailed key]
        (callGeminiLoop oracle jitter st N (attempt + 1) fuel (s1.markKeyFailed key) (some msg)) := by
  simp [callGeminiLoop, hsel, hstep, hk, hq]

/-- One transiently-failed attempt that is not the last allowed one: the
step records the outbound call and a sleep of exactly `2^attempt + jitter`
seconds, no `markFailed`, and continues with the unmarked pool. -/
lemma callGeminiLoop_transient_step (oracle : Nat → CallOutcome) (jitter : Nat → ℚ) (st : Bool)
    (N attempt fuel : Nat) (s s1 : GeminiService) (le : Option String) (key msg : String)
    (hsel : s.getNextApiKey = (some key, s1)) (hk : key ≠ "")
    (hstep : (oracle attempt).toStep = Sum.inr msg) (hq : isQuotaError msg = false)
    (hlt : attempt < N - 1) :
    callGeminiLoop oracle jitter st N attempt (fuel + 1) s le =
      withActions [OrchAction.attemptCall key,
          OrchAction.sleep ((2 : ℚ) ^ attempt + jitter attempt)]
        (callGeminiLoop oracle jitter st N (attempt + 1) fuel s1 (some msg)) := by
  simp [callGeminiLoop, hsel, hstep, hk, hq, hlt]

/-- One transiently-failed attempt that is the last allowed one: no sleep;
the loop stops with the terminal error wrapping this attempt's message. -/
lemma callGeminiLoop_transient_last (oracle : Nat → CallOutcome) (jitter : Nat → ℚ) (st : Bool)
    (N attempt fuel : Nat) (s s1 : GeminiService) (le : Option String) (key msg : String)
    (hsel : s.getNextApiKey = (some key, s1)) (hk : key ≠ "")
    (hstep : (oracle attempt).toStep = Sum.inr msg) (hq : isQuotaError msg = false)
    (hlt : ¬ attempt < N - 1) :
    callGeminiLoop oracle jitter st N attempt (fuel + 1) s le =
      (GeminiResult.errorExhausted N (some msg), s1, [OrchAction.attemptCall key]) := by
  simp [callGeminiLoop, hsel, hstep, hk, hq, hlt]

/-! ### Helper lemmas about `_mark_key_failed` -/

lemma findIdx?_beq_getElem (l : List String) (hnd : l.Nodup) :
    ∀ i, (hi : i < l.length) → l.findIdx? (fun x => x == l[i]) = some i := by
  induction l with
  | nil => intro i hi; simp at hi
  | cons a t ih =>
    intro i hi
    rcases List.nodup_cons.mp hnd with ⟨ha, ht⟩
    cases i with
    | zero => simp [List.findIdx?_cons]
    | succ n =>
      have hn : n < t.length := by simpa using hi
      have hne : ¬ a = t[n] := fun h => ha (h ▸ List.getElem_mem hn)
      rw [List.findIdx?_cons, if_neg (by simp [List.getElem_cons_succ, hne]), List.findIdx?_succ]
      have := ih ht n hn
      simp only [List.getElem_cons_succ]
      rw [this]
      rfl

/-- `_mark_key_failed` is idempotent. -/
lemma markKeyFailed_idem (s : GeminiService) (k : String) :
    (s.markKeyFailed k).markKeyFailed k = s.markKeyFailed k := by
  unfold GeminiService.markKeyFailed
  cases h : s.api_keys.findIdx? (fun x => x == k) with
  | none => simp [h]
  | some i => simp [h, Finset.insert_idem]

/-- `_mark_key_failed` is a no-op (swallows the `ValueError`) when the key
value is not in the credential list. -/
lemma markKeyFailed_not_mem (s : GeminiService) (k : String) (h : k ∉ s.api_keys) :
    s.markKeyFailed k = s := by
  unfold GeminiService.markKeyFailed
  have hnone : s.api_keys.findIdx? (fun x => x == k) = none := by
    rw [List.findIdx?_eq_none_iff]
    intro x hx
    exact beq_eq_false_iff_ne.mpr (fun he => h (he ▸ hx))
  simp [hnone]

/-- With pairwise-distinct credentials, marking the key at index `i` adds
exactly index `i` to the failed set. -/
lemma markKeyFailed_selected (s : GeminiService) (i : Nat) (hnd : s.api_keys.Nodup)
    (hi : i < s.api_keys.length) :
    (s.markKeyFailed (s.api_keys.getD i "")).failed_keys = insert i s.failed_keys := by
  unfold GeminiService.markKeyFailed
  rw [List.getD_eq_getElem _ _ hi, findIdx?_beq_getElem _ hnd i hi]

/-! ### Helper lemmas about round-robin rotation -/

lemma availIndices_empty_failed (s : GeminiService) (hf : s.failed_keys = ∅) :
    s.availIndices = List.range s.api_keys.length := by
  unfold GeminiService.availIndices
  rw [hf]
  exact List.filter_eq_self.mpr (fun a _ => by simp)

lemma getNextApiKey_empty_failed (s : GeminiService) (hf : s.failed_keys = ∅)
    (hN : s.api_keys ≠ []) :
    s.selectedIdx = some (s.current_key_index % s.api_keys.length) ∧
      s.getNextApiKey.2.api_keys = s.api_keys ∧
      s.getNextApiKey.2.failed_keys = ∅ ∧
      s.getNextApiKey.2.current_key_index = (s.current_key_index + 1) % s.api_keys.length := by
  have hlen : 0 < s.api_keys.length := List.length_pos.mpr hN
  have hrne : List.range s.api_keys.length ≠ [] := by
    intro h
    have h0 : s.api_keys.length = 0 := by
      have hc := congrArg List.length h
      simpa using hc
    omega
  have har : s.availableAfterReset = (List.range s.api_keys.length, s.failed_keys) := by
    unfold GeminiService.availableAfterReset
    rw [availIndices_empty_failed s hf, if_neg hrne]
  have hsel : (List.range s.api_keys.length).getD
      (s.current_key_index % (List.range s.api_keys.length).length) 0 =
      s.current_key_index % s.api_keys.length := by
    rw [List.length_range]
    have hm : s.current_key_index % s.api_keys.length < (List.range s.api_keys.length).length := by
      rw [List.length_range]
      exact Nat.mod_lt _ hlen
    rw [List.getD_eq_getElem _ _ hm, List.getElem_range]
  refine ⟨?_, ?_, ?_, ?_⟩
  · unfold GeminiService.selectedIdx
    rw [if_neg hN, har]
    simpa using congrArg some hsel
  · unfold GeminiService.getNextApiKey
    rw [if_neg hN, har]
  · unfold GeminiService.getNextApiKey
    rw [if_neg hN, har]
    exact hf
  · unfold GeminiService.getNextApiKey
    rw [if_neg hN, har]
    simp [List.length_range]

lemma selTrace_closed (M : Nat) :
    ∀ s : GeminiService, s.failed_keys = ∅ → s.api_keys ≠ [] →
      selTrace s M =
        (List.range M).map (fun k => (s.current_key_index + k) % s.api_keys.length) := by
  induction M with
  | zero => intro s _ _; simp [selTrace]
  | succ M ih =>
    intro s hf hN
    obtain ⟨hsel, hkeys, hf', hcur⟩ := getNextApiKey_empty_failed s hf hN
    have hN' : s.getNextApiKey.2.api_keys ≠ [] := by rw [hkeys]; exact hN
    have ihs := ih s.getNextApiKey.2 hf' hN'
    rw [hkeys, hcur] at ihs
    unfold selTrace
    rw [hsel, ihs, List.range_succ_eq_map, List.map_cons, List.map_map]
    have hhead : (s.current_key_index + 0) % s.api_keys.length =
        s.current_key_index % s.api_keys.length := by
      rw [Nat.add_zero]
    have htail : List.map
          ((fun k => (s.current_key_index + k) % s.api_keys.length) ∘ Nat.succ)
          (List.range M) =
        List.map (fun k =>
          ((s.current_key_index + 1) % s.api_keys.length + k) % s.api_keys.length)
          (List.range M) := by
      apply List.map_congr_left
      intro k _
      show (s.current_key_index + Nat.succ k) % s.api_keys.length = _
      rw [Nat.mod_add_mod]
      congr 1
      omega
    rw [htail, hhead]

lemma cycle_map_nodup (N c : Nat) :
    ((List.range N).map (fun k => (c + k) % N)).Nodup := by
  apply List.Nodup.map_on _ (List.nodup_range N)
  intro x hx y hy hxy
  have hxN := List.mem_range.mp hx
  have hyN := List.mem_range.mp hy
  have hmod : x ≡ y [MOD N] := Nat.ModEq.add_left_cancel' c hxy
  calc x = x % N := (Nat.mod_eq_of_lt hxN).symm
    _ = y % N := hmod
    _ = y := Nat.mod_eq_of_lt hyN

lemma cycle_map_count (N c i : Nat) (hN : 0 < N) (hi : i < N) :
    ((List.range N).map (fun k => (c + k) % N)).count i = 1 := by
  have hr : c % N < N := Nat.mod_lt _ hN
  have hmem : i ∈ (List.range N).map (fun k => (c + k) % N) := by
    by_cases hc : c % N ≤ i
    · refine List.mem_map.mpr ⟨i - c % N, List.mem_range.mpr (by omega), ?_⟩
      rw [← Nat.mod_add_mod]
      have : c % N + (i - c % N) = i := by omega
      rw [this, Nat.mod_eq_of_lt hi]
    · refine List.mem_map.mpr ⟨i + N - c % N, List.mem_range.mpr (by omega), ?_⟩
      rw [← Nat.mod_add_mod]
      have : c % N + (i + N - c % N) = i + N := by omega
      rw [this, Nat.add_mod_right, Nat.mod_eq_of_lt hi]
  have h1 : ((List.range N).map (fun k => (c + k) % N)).count i ≤ 1 :=
    List.nodup_iff_count_le_one.mp (cycle_map_nodup N c) i
  have h2 : 0 < ((List.range N).map (fun k => (c + k) % N)).count i :=
    List.count_pos_iff.mpr hmem
  omega

lemma count_rot_bounds (N : Nat) (hN : 0 < N) :
    ∀ M c i, i < N →
      M / N ≤ ((List.range M).map (fun k => (c + k) % N)).count i ∧
      ((List.range M).map (fun k => (c + k) % N)).count i ≤ (M + N - 1) / N := by
  intro M
  induction M using Nat.strong_induction_on with
  | _ M ih =>
    intro c i hi
    by_cases hM : M < N
    · have hsub : ((List.range M).map (fun k => (c + k) % N)).Sublist
          ((List.range N).map (fun k => (c + k) % N)) :=
        List.Sublist.map _ (List.range_sublist.mpr (le_of_lt hM))
      have hle : ((List.range M).map (fun k => (c + k) % N)).count i ≤ 1 := by
        rw [← cycle_map_count N c i hN hi]
        exact hsub.count_le i
      constructor
      · have : M / N = 0 := Nat.div_eq_of_lt hM
        omega
      · by_cases hM0 : M = 0
        · subst hM0
          simp
        · have h1 : 1 ≤ (M + N - 1) / N := (Nat.one_le_div_iff hN).mpr (by omega)
          omega
    · have hMN : N ≤ M := le_of_not_lt hM
      have hlt : M - N < M := by omega
      have hMeq : M = (M - N) + N := by omega
      have hdec : (List.range M).map (fun k => (c + k) % N) =
          (List.range (M - N)).map (fun k => (c + k) % N) ++
          (List.range N).map (fun k => (c + (M - N) + k) % N) := by
        have hsplit : (List.range ((M - N) + N)).map (fun k => (c + k) % N) =
            (List.range (M - N)).map (fun k => (c + k) % N) ++
            (List.range N).map (fun k => (c + (M - N) + k) % N) := by
          rw [List.range_add, List.map_append, List.map_map]
          have htl : List.map ((fun k => (c + k) % N) ∘ fun x => M - N + x) (List.range N) =
              List.map (fun k => (c + (M - N) + k) % N) (List.range N) := by
            apply List.map_congr_left
            intro k _
            show (c + (M - N + k)) % N = (c + (M - N) + k) % N
            congr 1
            omega
          rw [htl]
        rw [← hMeq] at hsplit
        exact hsplit
      have hcnt : ((List.range M).map (fun k => (c + k) % N)).count i =
          ((List.range (M - N)).map (fun k => (c + k) % N)).count i + 1 := by
        rw [hdec, List.count_append, cycle_map_count N (c + (M - N)) i hN hi]
      have hih := ih (M - N) hlt c i hi
      have hdiv : M / N = (M - N) / N + 1 := by
        conv_lhs => rw [hMeq]
        rw [Nat.add_div_right _ hN]
      have hdiv2 : (M + N - 1) / N = ((M - N) + N - 1) / N + 1 := by
        have hMeq2 : M + N - 1 = ((M - N) + N - 1) + N := by omega
        rw [hMeq2, Nat.add_div_right _ hN]
      omega

/-! ### Helper lemmas about the structured-output extractor -/

lemma findIdx?_pred_char (p : Char → Bool) :
    ∀ (l : List Char) (i : Nat), l.findIdx? p = some i →
      i < l.length ∧ p (l.getD i ' ') = true := by
  intro l
  induction l with
  | nil => intro i h; simp [List.findIdx?] at h
  | cons a t ih =>
    intro i h
    rw [List.findIdx?_cons] at h
    by_cases hpa : p a = true
    · rw [if_pos hpa] at h
      have : i = 0 := by simpa using h.symm
      subst this
      exact ⟨Nat.succ_pos _, hpa⟩
    · rw [if_neg hpa, List.findIdx?_succ] at h
      obtain ⟨j, hj, hji⟩ := Option.map_eq_some'.mp h
      obtain ⟨hjl, hjp⟩ := ih j hj
      subst hji
      exact ⟨by simpa using hjl, by simpa using hjp⟩

lemma strFindChar_char (s : String) (c : Char) (i : Nat) (h : strFindChar s c = some i) :
    i < s.data.length ∧ s.data.getD i ' ' = c := by
  obtain ⟨hl, hp⟩ := findIdx?_pred_char _ _ _ h
  exact ⟨hl, by simpa using hp⟩

lemma strRFindChar_char (s : String) (c : Char) (j : Nat) (h : strRFindChar s c = some j) :
    j < s.data.length ∧ s.data.getD j ' ' = c := by
  unfold strRFindChar at h
  cases hr : s.data.reverse.findIdx? (fun x => x == c) with
  | none => rw [hr] at h; simp at h
  | some j' =>
    rw [hr] at h
    have hj : j = s.data.length - 1 - j' := by simpa using h.symm
    obtain ⟨hl, hp⟩ := findIdx?_pred_char _ _ _ hr
    rw [List.length_reverse] at hl
    have hlen : 0 < s.data.length := by omega
    have hjl : j < s.data.length := by omega
    refine ⟨hjl, ?_⟩
    have hget : s.data.reverse.getD j' ' ' = s.data.getD (s.data.length - 1 - j') ' ' := by
      have h1 : j' < s.data.reverse.length := by rw [List.length_reverse]; exact hl
      have h2 : s.data.length - 1 - j' < s.data.length := by omega
      rw [List.getD_eq_getElem _ _ h1, List.getD_eq_getElem _ _ h2]
      exact List.getElem_reverse h1
    have hpc : s.data.reverse.getD j' ' ' = c := by
      have hb := hp
      simp only [beq_iff_eq] at hb
      exact hb
    rw [hget] at hpc
    rw [hj]
    exact hpc

lemma braces_idx_ne (t : String) (i j : Nat)
    (hf : strFindChar t (Char.ofNat 123) = some i)
    (hr : strRFindChar t (Char.ofNat 125) = some j) : i ≠ j := by
  intro he
  have h1 := (strFindChar_char t _ i hf).2
  have h2 := (strRFindChar_char t _ j hr).2
  rw [he, h2] at h1
  exact absurd h1 (by decide)

/-- The code's brace-location condition and the amended spec's agree on
every input, so the two extractor pipelines coincide. -/
lemma parseStructuredOutput_eq_amended (response : String) :
    parseStructuredOutput response = specParseStructuredOutputAmended response := by
  simp only [parseStructuredOutput, specParseStructuredOutputAmended, specLocateTarget]
  cases hf : strFindChar (normalizeResponse response) (Char.ofNat 123) with
  | none =>
    cases hr : strRFindChar (normalizeResponse response) (Char.ofNat 125) with
    | none =>
      dsimp only
      rw [if_neg (by decide)]
    | some j =>
      dsimp only
      rw [if_neg (fun h => absurd h.1 (by decide))]
  | some i =>
    cases hr : strRFindChar (normalizeResponse response) (Char.ofNat 125) with
    | none =>
      dsimp only
      rw [if_neg (fun h => by have h2 := h.2; omega)]
    | some j =>
      dsimp only
      rcases Nat.lt_trichotomy i j with hlt | heq | hgt
      · have ht1 : ((i : Int)).toNat = i := by omega
        have ht2 : (((j : Int)) + 1).toNat = j + 1 := by omega
        rw [if_pos ⟨by omega, by omega⟩, if_pos hlt, ht1, ht2]
      · exact absurd heq (braces_idx_ne _ _ _ hf hr)
      · rw [if_neg (fun h => by have h2 := h.2; omega), if_neg (by omega)]

lemma pyTake_length_le (s : String) (n : Nat) : (pyTake s n).length ≤ n := by
  unfold pyTake
  show (s.data.take n).length ≤ n
  rw [List.length_take]
  exact min_le_left _ _

lemma outcomeOf_cases (t w : String) :
    (∃ j, outcomeOf t w = ParseOutcome.parsed j) ∨
      outcomeOf t w =
        ParseOutcome.diagnostic "Failed to parse structured output" (pyTake w 500) := by
  unfold outcomeOf
  cases h : jsonLoads t with
  | some v => exact Or.inl ⟨v, rfl⟩
  | none => exact Or.inr rfl

/-- A successfully constructed service has a non-empty key list with no
empty-string keys (the loader filters falsy values). -/
lemma init_goodKeys (env : Nat → Option String) (s0 : GeminiService)
    (h : GeminiService.init env = Except.ok s0) : goodKeys s0 := by
  unfold GeminiService.init loadApiKeys at h
  by_cases hE : loadedKeys env = []
  · rw [if_pos hE] at h
    exact absurd h (by simp)
  · rw [if_neg hE] at h
    have hs0 : s0 = GeminiService.mk (loadedKeys env) 0 (fun _ => 0) ∅ := by
      have := h
      simp at this
      exact this.symm
    constructor
    · rw [hs0]
      exact hE
    · intro k hk
      rw [hs0] at hk
      obtain ⟨a, _, hfa⟩ := List.mem_filterMap.mp hk
      cases henv : env (a + 1) with
      | none =>
        rw [henv] at hfa
        have hfa' : (none : Option String) = some k := hfa
        exact Option.noConfusion hfa'
      | some v =>
        rw [henv] at hfa
        have hfa' : (if v = "" then (none : Option String) else some v) = some k := hfa
        by_cases hv : v = ""
        · rw [if_pos hv] at hfa'
          exact Option.noConfusion hfa'
        · rw [if_neg hv] at hfa'
          have hvk : v = k := Option.some.inj hfa'
          rw [← hvk]
          exact hv

/-! ### Claim theorems -/

/-- C1: for every `call_gemini` invocation with attempt budget `N > 0` on a
well-constructed pool whose `N` underlying attempts all fail, the call
terminates with the terminal `RuntimeError` wrapping the last observed
failure cause, never returns any (fabricated) success payload, and issues
exactly `N` outbound attempts. -/
theorem c1_exhaustion (oracle : Nat → CallOutcome) (jitter : Nat → ℚ) (st : Bool)
    (N : Nat) (s : GeminiService) (hg : goodKeys s) (hN : 0 < N)
    (hfail : ∀ k, k < N → (failMsg (oracle k)).isSome) :
    (call_gemini oracle jitter st N s).1 =
      GeminiResult.errorExhausted N (failMsg (oracle (N - 1))) ∧
    (∀ p, (call_gemini oracle jitter st N s).1 ≠ GeminiResult.ok p) ∧
    numAttempts (call_gemini oracle jitter st N s).2.2 = N := by
  have hfail' : ∀ k, k < N → (failMsg (oracle (0 + k))).isSome := by simpa using hfail
  have h := callGeminiLoop_exhaust oracle jitter st N N 0 s none hg (by omega) hfail'
  unfold call_gemini
  refine ⟨?_, ?_, h.2⟩
  · rw [h.1, if_neg (by omega)]
  · intro p hp
    rw [h.1] at hp
    exact GeminiResult.noConfusion hp

def oracleW1 : Nat → CallOutcome := fun _ => CallOutcome.failure "connection reset"

def jitterW : Nat → ℚ := fun _ => 1 / 2

def serviceW1 : GeminiService := GeminiService.mk ["k1"] 0 (fun _ => 0) ∅

theorem c1_exhaustion_witness :
    goodKeys serviceW1 ∧ 0 < 3 ∧ (∀ k, k < 3 → (failMsg (oracleW1 k)).isSome) ∧
      ((call_gemini oracleW1 jitterW false 3 serviceW1).1 =
        GeminiResult.errorExhausted 3 (failMsg (oracleW1 2)) ∧
      (∀ p, (call_gemini oracleW1 jitterW false 3 serviceW1).1 ≠ GeminiResult.ok p) ∧
      numAttempts (call_gemini oracleW1 jitterW false 3 serviceW1).2.2 = 3) :=
  ⟨by decide, by decide, fun _ _ => rfl,
    c1_exhaustion oracleW1 jitterW false 3 serviceW1 (by decide) (by decide) (fun _ _ => rfl)⟩

/-- C9: constructing the service fails immediately at construction with the
configuration error when the loaded credential list is empty, and a
successful construction never carries zero credentials. -/
theorem c9_empty_credentials :
    (∀ env : Nat → Option String, loadedKeys env = [] →
      GeminiService.init env = Except.error
        "No Gemini API keys found. At least GEMINI_API_KEY_1 is required for production mode.") ∧
    (∀ (env : Nat → Option String) (s : GeminiService),
      GeminiService.init env = Except.ok s → s.api_keys ≠ []) := by
  constructor
  · intro env h
    unfold GeminiService.init loadApiKeys
    rw [if_pos h]
  · intro env s h
    exact (init_goodKeys env s h).1

theorem c9_empty_credentials_witness :
    loadedKeys (fun _ => none) = [] ∧
      GeminiService.init (fun _ => none) = Except.error
        "No Gemini API keys found. At least GEMINI_API_KEY_1 is required for production mode." :=
  ⟨rfl, c9_empty_credentials.1 (fun _ => none) rfl⟩

/-- C10 (implicit): once construction succeeded, the key list is non-empty
and free of falsy keys, so `_get_next_api_key` always returns a key, and
the `RuntimeError("No available Gemini API keys")` branch of `call_gemini`
is unreachable from any state sharing that key list. -/
theorem c10_no_keys_unreachable (env : Nat → Option String) (s0 : GeminiService)
    (hinit : GeminiService.init env = Except.ok s0) :
    ∀ s : GeminiService, s.api_keys = s0.api_keys →
      (∃ key s', s.getNextApiKey = (some key, s') ∧ key ≠ "") ∧
      (∀ (oracle : Nat → CallOutcome) (jitter : Nat → ℚ) (st : Bool) (N : Nat),
        (call_gemini oracle jitter st N s).1 ≠ GeminiResult.errorNoKeys) := by
  intro s hs
  have hg : goodKeys s := goodKeys_congr s0 s hs (init_goodKeys env s0 hinit)
  constructor
  · obtain ⟨key, s', hsel, _, hk, _, _⟩ := getNextApiKey_good s hg
    exact ⟨key, s', hsel, hk⟩
  · intro oracle jitter st N
    exact callGeminiLoop_ne_noKeys oracle jitter st N N 0 s none hg

def envW : Nat → Option String := fun i => if i = 1 then some "k1" else none

theorem c10_no_keys_unreachable_witness :
    GeminiService.init envW = Except.ok serviceW1 ∧
      ((∃ key s', serviceW1.getNextApiKey = (some key, s') ∧ key ≠ "") ∧
       (∀ (oracle : Nat → CallOutcome) (jitter : Nat → ℚ) (st : Bool) (N : Nat),
         (call_gemini oracle jitter st N serviceW1).1 ≠ GeminiResult.errorNoKeys)) :=
  ⟨rfl, c10_no_keys_unreachable envW serviceW1 rfl serviceW1 rfl⟩

/-- C3: when the failed set covers every credential index, the very next
`_get_next_api_key` call clears it and still returns a credential; and the
index it selects is never in the failed set whenever some non-failed index
exists. -/
theorem c3_self_healing (s : GeminiService) (h : s.api_keys ≠ []) :
    ((∀ i, i < s.api_keys.length → i ∈ s.failed_keys) →
      (∃ key, s.getNextApiKey.1 = some key) ∧ s.getNextApiKey.2.failed_keys = ∅) ∧
    (∀ i, i < s.api_keys.length → i ∉ s.failed_keys →
      ∀ j, s.selectedIdx = some j → j ∉ s.failed_keys) := by
  constructor
  · intro hall
    have hempty : s.availIndices = [] := by
      unfold GeminiService.availIndices
      rw [List.filter_eq_nil_iff]
      intro a ha
      simp [hall a (List.mem_range.mp ha)]
    have har : s.availableAfterReset = (List.range s.api_keys.length, ∅) := by
      unfold GeminiService.availableAfterReset
      rw [if_pos hempty]
    obtain ⟨i, _, _, heq⟩ := getNextApiKey_spec s h
    constructor
    · rw [heq]
      exact ⟨_, rfl⟩
    · rw [heq]
      show s.availableAfterReset.2 = ∅
      rw [har]
  · intro i hi hnif j hj
    have hmem : i ∈ s.availIndices := by
      unfold GeminiService.availIndices
      rw [List.mem_filter]
      exact ⟨List.mem_range.mpr hi, by simpa using hnif⟩
    have hne : s.availIndices ≠ [] := fun hc => by
      rw [hc] at hmem
      exact absurd hmem (List.not_mem_nil i)
    have har : s.availableAfterReset = (s.availIndices, s.failed_keys) := by
      unfold GeminiService.availableAfterReset
      rw [if_neg hne]
    unfold GeminiService.selectedIdx at hj
    rw [if_neg h, har] at hj
    have hj' : s.availIndices.getD (s.current_key_index % s.availIndices.length) 0 = j := by
      simpa using hj
    have hlen : 0 < s.availIndices.length := List.length_pos.mpr hne
    have hjm : j ∈ s.availIndices := by
      rw [← hj']
      exact getD_mem_nat _ _ _ (Nat.mod_lt _ hlen)
    exact (availIndices_sub s j hjm).2

def serviceW3 : GeminiService := GeminiService.mk ["a", "b"] 0 (fun _ => 0) {0, 1}

theorem c3_self_healing_witness :
    serviceW3.api_keys ≠ [] ∧
      (((∀ i, i < serviceW3.api_keys.length → i ∈ serviceW3.failed_keys) →
        (∃ key, serviceW3.getNextApiKey.1 = some key) ∧
          serviceW3.getNextApiKey.2.failed_keys = ∅) ∧
      (∀ i, i < serviceW3.api_keys.length → i ∉ serviceW3.failed_keys →
        ∀ j, serviceW3.selectedIdx = some j → j ∉ serviceW3.failed_keys)) :=
  ⟨by decide, c3_self_healing serviceW3 (by decide)⟩

/-- C8: with no failed credentials, `M` consecutive selections pick each
index between `⌊M/N⌋` and `⌈M/N⌉` times, and no index repeats within one
rotation cycle. -/
theorem c8_rotation_fairness (s : GeminiService) (M : Nat)
    (hf : s.failed_keys = ∅) (hN : s.api_keys ≠ []) :
    (∀ i, i < s.api_keys.length →
      M / s.api_keys.length ≤ (selTrace s M).count i ∧
      (selTrace s M).count i ≤ (M + s.api_keys.length - 1) / s.api_keys.length) ∧
    (selTrace s (min M s.api_keys.length)).Nodup := by
  have hlen : 0 < s.api_keys.length := List.length_pos.mpr hN
  constructor
  · intro i hi
    rw [selTrace_closed M s hf hN]
    exact count_rot_bounds s.api_keys.length hlen M s.current_key_index i hi
  · rw [selTrace_closed (min M s.api_keys.length) s hf hN]
    have hsub : (List.range (min M s.api_keys.length)).Sublist (List.range s.api_keys.length) :=
      List.range_sublist.mpr (min_le_right _ _)
    exact List.Nodup.sublist (List.Sublist.map _ hsub)
      (cycle_map_nodup s.api_keys.length s.current_key_index)

def serviceW8 : GeminiService := GeminiService.mk ["a", "b", "c"] 0 (fun _ => 0) ∅

theorem c8_rotation_fairness_witness :
    serviceW8.failed_keys = ∅ ∧ serviceW8.api_keys ≠ [] ∧
      ((∀ i, i < serviceW8.api_keys.length →
        7 / serviceW8.api_keys.length ≤ (selTrace serviceW8 7).count i ∧
        (selTrace serviceW8 7).count i ≤
          (7 + serviceW8.api_keys.length - 1) / serviceW8.api_keys.length) ∧
      (selTrace serviceW8 (min 7 serviceW8.api_keys.length)).Nodup) :=
  ⟨rfl, by decide, c8_rotation_fairness serviceW8 7 rfl (by decide)⟩

/-- C2: a quota/rate-limit-classified attempt marks the selected key
failed, performs no sleep, and consumes exactly one attempt slot; with
distinct credentials the marked index is the selected one; and
`_mark_key_failed` is idempotent and a no-op on unrecognized values. -/
theorem c2_quota_no_sleep (oracle : Nat → CallOutcome) (jitter : Nat → ℚ) (st : Bool)
    (N attempt fuel : Nat) (le : Option String) (s s1 : GeminiService) (key msg : String)
    (hsel : s.getNextApiKey = (some key, s1)) (hk : key ≠ "")
    (hor : oracle attempt = CallOutcome.failure msg) (hq : isQuotaError msg = true) :
    callGeminiLoop oracle jitter st N attempt (fuel + 1) s le =
      withActions [OrchAction.attemptCall key, OrchAction.markFailed key]
        (callGeminiLoop oracle jitter st N (attempt + 1) fuel (s1.markKeyFailed key)
          (some msg)) ∧
    (∀ i, s.api_keys.Nodup → s.selectedIdx = some i →
      (s1.markKeyFailed key).failed_keys = insert i s1.failed_keys) ∧
    (∀ (t : GeminiService) (k : String),
      (t.markKeyFailed k).markKeyFailed k = t.markKeyFailed k) ∧
    (∀ (t : GeminiService) (k : String), k ∉ t.api_keys → t.markKeyFailed k = t) := by
  have hstep : (oracle attempt).toStep = Sum.inr msg := by rw [hor]; rfl
  refine ⟨callGeminiLoop_quota_step oracle jitter st N attempt fuel s s1 le key msg
      hsel hk hstep hq, ?_, markKeyFailed_idem, markKeyFailed_not_mem⟩
  intro i hnd hidx
  have hne : s.api_keys ≠ [] := by
    intro hnil
    unfold GeminiService.selectedIdx at hidx
    rw [if_pos hnil] at hidx
    exact Option.noConfusion hidx
  obtain ⟨i', hi', hlt, heq⟩ := getNextApiKey_spec s hne
  have hii : i = i' := by
    rw [hidx] at hi'
    exact Option.some.inj hi'
  subst hii
  have hpair := hsel.symm.trans heq
  rw [Prod.mk.injEq] at hpair
  have hkey : key = s.api_keys.getD i "" := Option.some.inj hpair.1
  have hs1 := hpair.2
  have happi : s1.api_keys = s.api_keys := by rw [hs1]
  have hnd1 : s1.api_keys.Nodup := by rw [happi]; exact hnd
  have hlt1 : i < s1.api_keys.length := by rw [happi]; exact hlt
  have hkey1 : key = s1.api_keys.getD i "" := by rw [happi]; exact hkey
  rw [hkey1]
  exact markKeyFailed_selected s1 i hnd1 hlt1

def oracleW2 : Nat → CallOutcome := fun _ => CallOutcome.failure "quota exceeded"

def serviceW2 : GeminiService := GeminiService.mk ["a", "b"] 0 (fun _ => 0) ∅

theorem c2_quota_no_sleep_witness :
    serviceW2.getNextApiKey = (some "a", serviceW2.getNextApiKey.2) ∧
    ("a" : String) ≠ "" ∧
    oracleW2 0 = CallOutcome.failure "quota exceeded" ∧
    isQuotaError "quota exceeded" = true ∧
    (callGeminiLoop oracleW2 jitterW false 3 0 (2 + 1) serviceW2 none =
      withActions [OrchAction.attemptCall "a", OrchAction.markFailed "a"]
        (callGeminiLoop oracleW2 jitterW false 3 (0 + 1) 2
          (serviceW2.getNextApiKey.2.markKeyFailed "a") (some "quota exceeded")) ∧
    (∀ i, serviceW2.api_keys.Nodup → serviceW2.selectedIdx = some i →
      (serviceW2.getNextApiKey.2.markKeyFailed "a").failed_keys =
        insert i serviceW2.getNextApiKey.2.failed_keys) ∧
    (∀ (t : GeminiService) (k : String),
      (t.markKeyFailed k).markKeyFailed k = t.markKeyFailed k) ∧
    (∀ (t : GeminiService) (k : String), k ∉ t.api_keys → t.markKeyFailed k = t)) :=
  ⟨rfl, by decide, rfl, rfl,
    c2_quota_no_sleep oracleW2 jitterW false 3 0 2 none serviceW2 serviceW2.getNextApiKey.2
      "a" "quota exceeded" rfl (by decide) rfl rfl⟩

/-- C4: a transiently-failed attempt `k` that is not the last sleeps for
exactly `2^k + jitter k` seconds (which lies in `[2^k, 2^k + 1)` when the
jitter draw lies in `[0, 1)`) before the next attempt; on the last attempt
no sleep happens and retrying stops with the terminal error. -/
theorem c4_transient_backoff (oracle : Nat → CallOutcome) (jitter : Nat → ℚ) (st : Bool)
    (N attempt fuel : Nat) (le : Option String) (s s1 : GeminiService) (key msg : String)
    (hsel : s.getNextApiKey = (some key, s1)) (hk : key ≠ "")
    (hor : oracle attempt = CallOutcome.failure msg) (hq : isQuotaError msg = false)
    (hj : 0 ≤ jitter attempt ∧ jitter attempt < 1) :
    (attempt < N - 1 →
      callGeminiLoop oracle jitter st N attempt (fuel + 1) s le =
        withActions [OrchAction.attemptCall key,
            OrchAction.sleep ((2 : ℚ) ^ attempt + jitter attempt)]
          (callGeminiLoop oracle jitter st N (attempt + 1) fuel s1 (some msg)) ∧
      (2 : ℚ) ^ attempt ≤ (2 : ℚ) ^ attempt + jitter attempt ∧
      (2 : ℚ) ^ attempt + jitter attempt < (2 : ℚ) ^ attempt + 1) ∧
    (¬ attempt < N - 1 →
      callGeminiLoop oracle jitter st N attempt (fuel + 1) s le =
        (GeminiResult.errorExhausted N (some msg), s1, [OrchAction.attemptCall key])) := by
  have hstep : (oracle attempt).toStep = Sum.inr msg := by rw [hor]; rfl
  constructor
  · intro hlt
    refine ⟨callGeminiLoop_transient_step oracle jitter st N attempt fuel s s1 le key msg
        hsel hk hstep hq hlt, ?_, ?_⟩
    · linarith [hj.1]
    · linarith [hj.2]
  · intro hlt
    exact callGeminiLoop_transient_last oracle jitter st N attempt fuel s s1 le key msg
      hsel hk hstep hq hlt

def oracleW4 : Nat → CallOutcome := fun _ => CallOutcome.failure "server error 500"

def serviceW4 : GeminiService := GeminiService.mk ["a"] 0 (fun _ => 0) ∅

theorem c4_transient_backoff_witness :
    serviceW4.getNextApiKey = (some "a", serviceW4.getNextApiKey.2) ∧
    ("a" : String) ≠ "" ∧
    oracleW4 0 = CallOutcome.failure "server error 500" ∧
    isQuotaError "server error 500" = false ∧
    (0 ≤ jitterW 0 ∧ jitterW 0 < 1) ∧
    ((0 < 3 - 1 →
      callGeminiLoop oracleW4 jitterW false 3 0 (2 + 1) serviceW4 none =
        withActions [OrchAction.attemptCall "a",
            OrchAction.sleep ((2 : ℚ) ^ 0 + jitterW 0)]
          (callGeminiLoop oracleW4 jitterW false 3 (0 + 1) 2 serviceW4.getNextApiKey.2
            (some "server error 500")) ∧
      (2 : ℚ) ^ 0 ≤ (2 : ℚ) ^ 0 + jitterW 0 ∧
      (2 : ℚ) ^ 0 + jitterW 0 < (2 : ℚ) ^ 0 + 1) ∧
    (¬ 0 < 3 - 1 →
      callGeminiLoop oracleW4 jitterW false 3 0 (2 + 1) serviceW4 none =
        (GeminiResult.errorExhausted 3 (some "server error 500"),
         serviceW4.getNextApiKey.2, [OrchAction.attemptCall "a"]))) :=
  ⟨rfl, by decide, rfl, rfl, by constructor <;> norm_num [jitterW],
    c4_transient_backoff oracleW4 jitterW false 3 0 2 none serviceW4
      serviceW4.getNextApiKey.2 "a" "server error 500" rfl (by decide) rfl rfl
      (by constructor <;> norm_num [jitterW])⟩

/-- C7: an attempt whose call succeeds with empty text behaves exactly like
a transient failure with message "Empty response from Gemini": it is not
classified as quota, it backs off and retries when attempts remain, stops
on the last attempt, and the selected credential is never marked failed
(the failed set does not grow across the selection). -/
theorem c7_empty_response (oracle : Nat → CallOutcome) (jitter : Nat → ℚ) (st : Bool)
    (N attempt fuel : Nat) (le : Option String) (s s1 : GeminiService) (key : String)
    (hsel : s.getNextApiKey = (some key, s1)) (hk : key ≠ "")
    (hor : oracle attempt = CallOutcome.success "") :
    failMsg (oracle attempt) = some "Empty response from Gemini" ∧
    isQuotaError "Empty response from Gemini" = false ∧
    (attempt < N - 1 →
      callGeminiLoop oracle jitter st N attempt (fuel + 1) s le =
        withActions [OrchAction.attemptCall key,
            OrchAction.sleep ((2 : ℚ) ^ attempt + jitter attempt)]
          (callGeminiLoop oracle jitter st N (attempt + 1) fuel s1
            (some "Empty response from Gemini"))) ∧
    (¬ attempt < N - 1 →
      callGeminiLoop oracle jitter st N attempt (fuel + 1) s le =
        (GeminiResult.errorExhausted N (some "Empty response from Gemini"), s1,
         [OrchAction.attemptCall key])) ∧
    s1.failed_keys ⊆ s.failed_keys := by
  have hstep : (oracle attempt).toStep = Sum.inr "Empty response from Gemini" := by
    rw [hor]; rfl
  have hq : isQuotaError "Empty response from Gemini" = false := rfl
  have hne : s.api_keys ≠ [] := by
    intro hnil
    unfold GeminiService.getNextApiKey at hsel
    rw [if_pos hnil] at hsel
    exact Option.noConfusion (congrArg Prod.fst hsel)
  obtain ⟨i, hi, hlt, heq⟩ := getNextApiKey_spec s hne
  have hpair := hsel.symm.trans heq
  rw [Prod.mk.injEq] at hpair
  have hs1 := hpair.2
  refine ⟨by rw [hor]; rfl, hq, ?_, ?_, ?_⟩
  · intro hltN
    exact callGeminiLoop_transient_step oracle jitter st N attempt fuel s s1 le key _
      hsel hk hstep hq hltN
  · intro hltN
    exact callGeminiLoop_transient_last oracle jitter st N attempt fuel s s1 le key _
      hsel hk hstep hq hltN
  · rw [hs1]
    exact availableAfterReset_snd_sub s

def oracleW7 : Nat → CallOutcome := fun _ => CallOutcome.success ""

def serviceW7 : GeminiService := GeminiService.mk ["a", "b"] 1 (fun _ => 0) ∅

theorem c7_empty_response_witness :
    serviceW7.getNextApiKey = (some "b", serviceW7.getNextApiKey.2) ∧
    ("b" : String) ≠ "" ∧
    oracleW7 0 = CallOutcome.success "" ∧
    (failMsg (oracleW7 0) = some "Empty response from Gemini" ∧
    isQuotaError "Empty response from Gemini" = false ∧
    (0 < 3 - 1 →
      callGeminiLoop oracleW7 jitterW false 3 0 (2 + 1) serviceW7 none =
        withActions [OrchAction.attemptCall "b",
            OrchAction.sleep ((2 : ℚ) ^ 0 + jitterW 0)]
          (callGeminiLoop oracleW7 jitterW false 3 (0 + 1) 2 serviceW7.getNextApiKey.2
            (some "Empty response from Gemini"))) ∧
    (¬ 0 < 3 - 1 →
      callGeminiLoop oracleW7 jitterW false 3 0 (2 + 1) serviceW7 none =
        (GeminiResult.errorExhausted 3 (some "Empty response from Gemini"),
         serviceW7.getNextApiKey.2, [OrchAction.attemptCall "b"])) ∧
    serviceW7.getNextApiKey.2.failed_keys ⊆ serviceW7.failed_keys) :=
  ⟨rfl, by decide, rfl,
    c7_empty_response oracleW7 jitterW false 3 0 2 none serviceW7
      serviceW7.getNextApiKey.2 "b" rfl (by decide) rfl⟩

/-- C5 (amended): the extractor trims, strips a leading "```json" marker,
strips a leading plain "```" marker whenever the remaining text starts
with one (even if the JSON-specific marker was just stripped — this is the
amendment), strips one trailing "```", then parses the inclusive substring
from the first `\x7b` to the last `\x7d` when the latter comes after the
former, and otherwise parses the whole normalized text. -/
theorem c5_extractor_pipeline : ∀ s : String,
    parseStructuredOutput s = specParseStructuredOutputAmended s :=
  parseStructuredOutput_eq_amended

/-- C5 counterexample: on input "```json``` 1 " the code strips the plain
"```" marker even though the JSON-specific one was present and parses the
remainder " 1" successfully, while the claim's only-if-absent rule leaves
"``` 1", whose JSON parse fails. -/
theorem c5_extractor_pipeline_counterexample :
    parseStructuredOutput "```json``` 1 " = ParseOutcome.parsed (Json.num "1") ∧
    specParseStructuredOutput "```json``` 1 " =
      ParseOutcome.diagnostic "Failed to parse structured output" "``` 1" ∧
    parseStructuredOutput "```json``` 1 " ≠ specParseStructuredOutput "```json``` 1 " :=
  ⟨rfl, rfl, fun h => ParseOutcome.noConfusion h⟩

/-- C6 (amended): the extractor never raises: every input yields either a
parsed value or the diagnostic value carrying the error marker string and
an at-most-500-character truncation of the **normalized** text (not of the
original raw input — that is the amendment). -/
theorem c6_parse_failure_diagnostic (s : String) :
    (∃ j, parseStructuredOutput s = ParseOutcome.parsed j) ∨
      (parseStructuredOutput s =
        ParseOutcome.diagnostic "Failed to parse structured output"
          (pyTake (normalizeResponse s) 500) ∧
       (pyTake (normalizeResponse s) 500).length ≤ 500) := by
  have heq : specParseStructuredOutputAmended s =
      outcomeOf (specLocateTarget (normalizeResponse s)) (normalizeResponse s) := rfl
  rw [parseStructuredOutput_eq_amended s, heq]
  rcases outcomeOf_cases (specLocateTarget (normalizeResponse s)) (normalizeResponse s) with
    ⟨j, hj⟩ | hd
  · exact Or.inl ⟨j, hj⟩
  · exact Or.inr ⟨hd, pyTake_length_le _ _⟩

/-- C6 counterexample: on the failing input "  not json" the diagnostic
carries the normalized text "not json", which differs from the truncated
original raw text "  not json". -/
theorem c6_parse_failure_diagnostic_counterexample :
    parseStructuredOutput "  not json" =
      ParseOutcome.diagnostic "Failed to parse structured output" "not json" ∧
    pyTake "  not json" 500 = "  not json" ∧
    ("not json" : String) ≠ "  not json" :=
  ⟨rfl, rfl, by decide⟩
